import Mathlib

/-!
Verification of the source-mapping core of `src/tools/typst-dom/src/typst-debug-info.mts`.

The rendered DOM tree is embedded as a pure inductive `Element`: a node carries
its class list, the three `data-` attributes read by the code
(`data-page-number`, `data-page-width`, `data-page-height`, each an
`Option String` standing for `getAttribute`'s `string | null`), a layout
rectangle standing for `getBoundingClientRect()`, and its ordered children.
JS numbers used for coordinates are embedded as rationals; `NaN` produced by
`Number.parseFloat` / `Number.parseInt` on unparseable input is embedded as
`none`. A JS `undefined` return is `Option.none`; an uncaught `TypeError`
(reading a property of `undefined`) is `Except.error ()`.
-/

/-- A layout rectangle, as returned by `getBoundingClientRect()`. -/
structure Rect where
  left : ℚ
  top : ℚ
  width : ℚ
  height : ℚ
deriving DecidableEq

/-- One point of a source path (wire format `{ kind: int, index: int, fingerprint: string }`).
The wire format only carries kinds 0..5 and non-negative indices, so both are `Nat`.
The fingerprint is carried but never used by the resolution algorithm. -/
structure ElementPoint where
  kind : Nat
  index : Nat
  fingerprint : String
deriving DecidableEq

/-- A rendered DOM element: class list, the three attributes the code reads,
its bounding rectangle, and its ordered children. -/
inductive Element where
  | mk (classList : List String) (dataPageNumber dataPageWidth dataPageHeight : Option String)
       (rect : Rect) (children : List Element)

/-- The element's class list. -/
def Element.classList : Element → List String
  | .mk cl _ _ _ _ _ => cl

/-- The element's `data-page-number` attribute (`none` = attribute absent). -/
def Element.dataPageNumber : Element → Option String
  | .mk _ pn _ _ _ _ => pn

/-- The element's `data-page-width` attribute. -/
def Element.dataPageWidth : Element → Option String
  | .mk _ _ pw _ _ _ => pw

/-- The element's `data-page-height` attribute. -/
def Element.dataPageHeight : Element → Option String
  | .mk _ _ _ ph _ _ => ph

/-- The element's bounding rectangle (`getBoundingClientRect()`). -/
def Element.rect : Element → Rect
  | .mk _ _ _ _ r _ => r

/-- The element's ordered children. -/
def Element.children : Element → List Element
  | .mk _ _ _ _ _ ch => ch

/-- The `CssClassToType` table: css class name to `SourceMappingType`
(Text = 0, Group = 1, Image = 2, Shape = 3, Page = 4, CharIndex = 5),
in the iteration order of the source. -/
def CssClassToType : List (String × Nat) :=
  [("typst-text", 0), ("typst-group", 1), ("typst-image", 2),
   ("typst-shape", 3), ("typst-page", 4), ("tsel", 5)]

/-- The loop of `castToSourceMappingElement`: the first table entry whose class
is contained in the class list. -/
def lookupClassTable (cl : List String) : List (String × Nat) → Option Nat
  | [] => none
  | (c, ty) :: rest => if c ∈ cl then some ty else lookupClassTable cl rest

/-- Classify a class list: `undefined` when the list is empty, otherwise the
first matching entry of `CssClassToType`. -/
def classifyClassList (cl : List String) : Option Nat :=
  if cl.length = 0 then none else lookupClassTable cl CssClassToType

/-- Embeds `castToSourceMappingElement`: classify a single element, non-recursively.
Returns `[ty, elem, ""]` on success, `undefined` otherwise. -/
def castToSourceMappingElement (e : Element) : Option (Nat × Element × String) :=
  (classifyClassList e.classList).map (fun ty => (ty, e, ""))

/-- Embeds `castToNestSourceMappingElement`: classify an element, recursing through
single-child chains of unclassified elements; an unclassified element whose
child count is not exactly one yields `undefined`. -/
def castToNestSourceMappingElement : Element → Option (Nat × Element × String)
  | .mk cl pn pw ph r ch =>
    match castToSourceMappingElement (.mk cl pn pw ph r ch) with
    | some res => some res
    | none =>
      match ch with
      | [c] => castToNestSourceMappingElement c
      | _ => none
termination_by e => sizeOf e
decreasing_by simp_wf; omega

/-- Embeds `castChildrenToSourceMappingElement`: classify the direct children,
dropping the `undefined` ones. -/
def castChildrenToSourceMappingElement (e : Element) : List (Nat × Element × String) :=
  e.children.filterMap castToNestSourceMappingElement

mutual

/-- All elements of a subtree (root included) carrying a class, in document
(pre-)order. -/
def subtreeWithClass (cls : String) : Element → List Element
  | .mk cl pn pw ph r ch =>
    (if cls ∈ cl then [Element.mk cl pn pw ph r ch] else []) ++ subtreeWithClassList cls ch

/-- Helper: `subtreeWithClass` mapped over a forest, concatenated in order. -/
def subtreeWithClassList (cls : String) : List Element → List Element
  | [] => []
  | c :: cs => subtreeWithClass cls c ++ subtreeWithClassList cls cs

end

/-- Embeds `elem.getElementsByClassName(cls)`: the descendants of `elem` (excluding
`elem` itself) carrying the class, in document order. -/
def getElementsByClassName (e : Element) (cls : String) : List Element :=
  subtreeWithClassList cls e.children

/-- Embeds `elem.getElementsByClassName("typst-page")[0]`: the descent root of
`resolveSourceLeaf`; `none` is JS `undefined`. -/
def findPage (e : Element) : Option Element :=
  (getElementsByClassName e "typst-page").head?

/-- The loop of `resolveSourceLeaf` over the path points after the root marker.
`curElem` is `none` when the JS variable holds `undefined` (no page found);
`.error ()` is the uncaught `TypeError` raised by reading `.children` of
`undefined`; `.ok none` is the function's explicit `undefined` (not-found)
return; `.ok (some (el, off))` is a returned pair (whose element is itself
`undefined` when `el = none`). -/
def resolveSourceLeafAux : Option Element → List ElementPoint → Except Unit (Option (Option Element × Nat))
  | curElem, [] => .ok (some (curElem, 0))
  | curElem, point :: rest =>
    if point.kind = 5 then .ok (some (curElem, point.index))
    else
      match curElem with
      | none => .error ()
      | some ce =>
        match (castChildrenToSourceMappingElement ce)[point.index]? with
        | none => .ok none
        | some entry =>
          if point.kind = entry.1 then resolveSourceLeafAux (some entry.2.1) rest
          else .ok none

/-- Embeds `resolveSourceLeaf(elem, path)`: skip the root marker, descend from the
first `typst-page` element. -/
def resolveSourceLeaf (elem : Element) (path : List ElementPoint) : Except Unit (Option (Option Element × Nat)) :=
  resolveSourceLeafAux (findPage elem) (path.drop 1)

/-- JS falsiness of a `string | null` value: `null` and `""` are falsy. -/
def jsFalsyStr : Option String → Bool
  | none => true
  | some s => s = ""

/-- A digit list folded to its decimal value. -/
def digitsToNat (ds : List Char) : Nat :=
  ds.foldl (fun a c => a * 10 + (c.toNat - 48)) 0

/-- The numeric prefix accepted by `Number.parseFloat` after the sign:
digits, optionally a dot and more digits; `none` is `NaN` (no digit at all).
Exponent suffixes are not modelled (no claim exercises them). -/
def parseUnsignedFloat (s : List Char) : Option ℚ :=
  let ip := s.takeWhile Char.isDigit
  match s.dropWhile Char.isDigit with
  | '.' :: r2 =>
    let fp := r2.takeWhile Char.isDigit
    if ip.isEmpty ∧ fp.isEmpty then none
    else some ((digitsToNat ip : ℚ) + (digitsToNat fp : ℚ) / (10 ^ fp.length))
  | _ => if ip.isEmpty then none else some ((digitsToNat ip : ℚ))

/-- Embeds `Number.parseFloat`: leading spaces, optional sign, numeric prefix;
`none` is `NaN`. -/
def parseFloat (s : String) : Option ℚ :=
  match s.toList.dropWhile (fun c => c = ' ') with
  | '-' :: rest => (parseUnsignedFloat rest).map (fun q => -q)
  | '+' :: rest => parseUnsignedFloat rest
  | cs => parseUnsignedFloat cs

/-- The decimal digit prefix accepted by `Number.parseInt` after the sign;
`none` is `NaN`. -/
def parseIntDigits (cs : List Char) : Option Nat :=
  let ds := cs.takeWhile Char.isDigit
  if ds.isEmpty then none else some (digitsToNat ds)

/-- Embeds `Number.parseInt` (decimal): leading spaces, optional sign, digit prefix;
`none` is `NaN`. -/
def parseInt (s : String) : Option ℤ :=
  match s.toList.dropWhile (fun c => c = ' ') with
  | '-' :: rest => (parseIntDigits rest).map (fun n => -(n : ℤ))
  | '+' :: rest => (parseIntDigits rest).map (fun n => (n : ℤ))
  | cs => (parseIntDigits cs).map (fun n => (n : ℤ))

/-- The result of `resolveFrameLoc`: `none` components are `NaN` values
produced by failed parses. -/
structure FrameLoc where
  page_no : Option ℤ
  x : Option ℚ
  y : Option ℚ
deriving DecidableEq

/-- The ascent loop of `resolveFrameLoc`. The event target's ancestor chain is
passed as an explicit list (target first); `isRoot` is the oracle for the JS
reference equality `elem === docRoot`. The outer `none` is the early plain
`return;` on reaching the designated root; the inner value is `mayPageElem`
when the loop ends (by `break` on a Page-classified element, or by running out
of ancestors, in which case it is the classification of the last one). -/
def ascendLoop (isRoot : Element → Bool) : List Element → Option (Nat × Element × String) → Option (Option (Nat × Element × String))
  | [], may => some may
  | e :: rest, _ =>
    match castToSourceMappingElement e with
    | some (k, pe, s) =>
      if k = 4 then some (some (k, pe, s))
      else if isRoot e then none
      else ascendLoop isRoot rest (some (k, pe, s))
    | none =>
      if isRoot e then none
      else ascendLoop isRoot rest none

/-- The loop of `getNthBackgroundRect`: the first element of the
previous-sibling walk that carries class `typst-page-inner` and whose
`data-page-number` attribute equals the page's. -/
def findBackgroundRect (pageNumber : Option String) : List Element → Option Element
  | [] => none
  | e :: rest =>
    if "typst-page-inner" ∈ e.classList ∧ e.dataPageNumber = pageNumber then some e
    else findBackgroundRect pageNumber rest

/-- Embeds `getNthBackgroundRect(elem, pageNumber)`: walk `elem` and then its
preceding siblings (supplied as `prevSibs`, nearest first); fall back to
`elem` itself when nothing matches. -/
def getNthBackgroundRect (elem : Element) (prevSibs : List Element) (pageNumber : Option String) : Element :=
  (findBackgroundRect pageNumber (elem :: prevSibs)).getD elem

/-- Embeds `resolveFrameLoc(event, elem)`: ascend to a page element, measure the
click against the background rectangle, convert via the declared page size.
`chain` is the target's ancestor chain (target first); `prevSibs` supplies an
element's preceding siblings (nearest first); `x`/`y` are
`event.clientX`/`event.clientY`. -/
def resolveFrameLoc (isRoot : Element → Bool) (chain : List Element) (prevSibs : Element → List Element) (x y : ℚ) : Option FrameLoc :=
  match ascendLoop isRoot chain none with
  | none => none
  | some none => none
  | some (some (_, pageElem, _)) =>
    let pageNumber := pageElem.dataPageNumber
    let backgroundRect := getNthBackgroundRect pageElem (prevSibs pageElem) pageNumber
    let pageRect := backgroundRect.rect
    let xPercent := (x - pageRect.left) / pageRect.width
    let yPercent := (y - pageRect.top) / pageRect.height
    let dataWidthS := pageElem.dataPageWidth
    let dataHeightS := pageElem.dataPageHeight
    if jsFalsyStr pageNumber || jsFalsyStr dataWidthS || jsFalsyStr dataHeightS then none
    else
      some { page_no := (parseInt (pageNumber.getD "")).map (fun n => n + 1),
             x := (parseFloat (dataWidthS.getD "")).map (fun w => xPercent * w),
             y := (parseFloat (dataHeightS.getD "")).map (fun h => yPercent * h) }

/-- The preview mode enumeration, imported by the source from
`typst-doc.mjs` (not part of this fragment); only the identity of the
`Slide` value is used by `scrollTo`. -/
inductive PreviewMode where
  | Doc
  | Slide
deriving DecidableEq

/-- The external effects performed by `scrollTo`: the partial page number set
in slide mode, the smooth-scroll target handed to `window.scrollTo`, and the
coordinates of the triggered ripple. -/
structure ScrollEffects where
  setPartialPageNumber : Option ℤ
  scrollTarget : Option (ℚ × ℚ)
  ripple : Option (ℚ × ℚ)
deriving DecidableEq

/-- Embeds `scrollTo(pageRect, pageNo, innerLeft, innerTop)` of `DebugJumpDocument`.
`basePos` is the document body's bounding rectangle; `innerWidth`/`innerHeight`
are the window viewport dimensions. -/
def scrollTo (previewMode : PreviewMode) (basePos : Rect) (innerWidth innerHeight : ℚ)
    (pageRect : Rect) (pageNo : ℤ) (innerLeft innerTop : ℚ) : ScrollEffects :=
  if previewMode = PreviewMode.Slide then
    { setPartialPageNumber := some pageNo, scrollTarget := none, ripple := none }
  else
    let left := innerLeft - basePos.left
    let top := innerTop - basePos.top
    let pw := innerWidth * (1 / 100)
    let ph := innerHeight * (1 / 100)
    let xOffsetInnerFix := 7 * pw
    let yOffsetInnerFix := (382 / 10) * ph
    let xOffset := left - xOffsetInnerFix
    let yOffset := top - yOffsetInnerFix
    let widthOccupied := 100 * 100 * pw / pageRect.width
    let pageAdjustLeft := pageRect.left - basePos.left - 5 * pw
    let pageAdjust := pageRect.left - basePos.left + pageRect.width - 95 * pw
    if widthOccupied ≥ 90 ∨ widthOccupied < 50 then
      { setPartialPageNumber := none, scrollTarget := some (xOffset, yOffset), ripple := some (left, top) }
    else
      let xOffsetAdjsut := if pageAdjust < xOffset then pageAdjust else pageAdjustLeft
      { setPartialPageNumber := none, scrollTarget := some (xOffsetAdjsut, yOffset), ripple := some (left, top) }

/-- A click handler identity (a JS closure; each installation creates a fresh
one). -/
abbrev Handler := Nat

/-- The handler-related state of a document root: the handler stashed on the
`sourceMappingHandler` property and the registered click listeners. -/
structure RootState where
  sourceMappingHandler : Option Handler
  listeners : List Handler

/-- Embeds `addEventListener("click", h)`: registers `h` unless already registered. -/
def addEventListener (listeners : List Handler) (h : Handler) : List Handler :=
  if h ∈ listeners then listeners else listeners ++ [h]

/-- Embeds `removeEventListener("click", h)`: drops the registration of `h`. -/
def removeEventListener (listeners : List Handler) (h : Handler) : List Handler :=
  listeners.erase h

/-- Embeds `removeSourceMappingHandler(docRoot)`: if a handler is stashed, unregister
it and delete the property. -/
def removeSourceMappingHandler (s : RootState) : RootState :=
  match s.sourceMappingHandler with
  | some prev => { sourceMappingHandler := none, listeners := removeEventListener s.listeners prev }
  | none => s

/-- Embeds `installEditorJumpToHandler(docRoot)`: remove any previous handler, stash
the fresh one `h`, register it. -/
def installEditorJumpToHandler (s : RootState) (h : Handler) : RootState :=
  let s1 := removeSourceMappingHandler s
  { sourceMappingHandler := some h, listeners := addEventListener s1.listeners h }

/-- Well-formedness of a root's handler state: the registered click listeners
are exactly the stashed handler (if any). This holds for a fresh root and is
preserved by install/remove. -/
def HandlerWF (s : RootState) : Prop :=
  s.listeners = s.sourceMappingHandler.toList

/-- Relation: `c'` is the single-child chain `c` with one unclassified wrapper inserted
somewhere strictly above the chain's classified end: either a fresh wrapper
around `c` itself, or (when `c` is an unclassified single-child link) the same
insertion one level down. -/
inductive ChainIns : Element → Element → Prop where
  | wrapTop : ∀ cl pn pw ph r c, classifyClassList cl = none →
      ChainIns c (.mk cl pn pw ph r [c])
  | under : ∀ cl pn pw ph r c c', classifyClassList cl = none → ChainIns c c' →
      ChainIns (.mk cl pn pw ph r [c]) (.mk cl pn pw ph r [c'])

/-- Relation `ChainRepl c n n' c'`: `c` is a single-child chain of unclassified links
ending at the classified element `n`, and `c'` is the same chain with the end
replaced by `n'` (classified under the same kind). -/
inductive ChainRepl : Element → Element → Element → Element → Prop where
  | top : ∀ n n' k, classifyClassList n.classList = some k →
      classifyClassList n'.classList = some k →
      ChainRepl n n n' n'
  | step : ∀ cl pn pw ph r c n n' c', classifyClassList cl = none → ChainRepl c n n' c' →
      ChainRepl (.mk cl pn pw ph r [c]) n n' (.mk cl pn pw ph r [c'])

/-- Relation `DescIns t pts t'`: `t'` is `t` with exactly one unclassified single-child
wrapper inserted along the descent of the path points `pts` from `t`: at a
descent step (a non-CharIndex point), either into the single-child chain of
one of the current node's children (`here`), or below the classified end `n`
of such a chain, along the descent of the remaining points from `n`
(`deeper`). -/
inductive DescIns : Element → List ElementPoint → Element → Prop where
  | here : ∀ cl pn pw ph r l c c' rt p rest, p.kind ≠ 5 → ChainIns c c' →
      DescIns (.mk cl pn pw ph r (l ++ c :: rt)) (p :: rest) (.mk cl pn pw ph r (l ++ c' :: rt))
  | deeper : ∀ cl pn pw ph r l c c' rt n n' p rest, p.kind ≠ 5 →
      ChainRepl c n n' c' → DescIns n rest n' →
      DescIns (.mk cl pn pw ph r (l ++ c :: rt)) (p :: rest) (.mk cl pn pw ph r (l ++ c' :: rt))

/-- A zero-sized rectangle for example elements whose layout is irrelevant. -/
def rect0 : Rect := ⟨0, 0, 0, 0⟩

/-- Example: a `typst-text` leaf. -/
def exText : Element := .mk ["typst-text"] none none none rect0 []

/-- Example: a `typst-page` element with the text leaf as only child. -/
def exPage : Element := .mk ["typst-page"] none none none rect0 [exText]

/-- Example: a class-free wrapper around the text leaf. -/
def exWrap : Element := .mk [] none none none rect0 [exText]

/-- Example: the page with the wrapper interposed above the text leaf. -/
def exPageW : Element := .mk ["typst-page"] none none none rect0 [exWrap]

/-- Example: a root whose only child is `exPage`. -/
def exTree : Element := .mk [] none none none rect0 [exPage]

/-- Example: a root whose only child is `exPageW`. -/
def exTreeW : Element := .mk [] none none none rect0 [exPageW]

/-- Example: the path root marker point. -/
def exRootPt : ElementPoint := ⟨4, 0, ""⟩

/-- Example: a Text-kind path point selecting child 0. -/
def exTextPt : ElementPoint := ⟨0, 0, ""⟩

/-- Example: a page element carrying full click metadata
(`data-page-number="0"`, width 600, height 800) and the background rectangle
`{left: 100, top: 50, width: 200, height: 100}`. -/
def exClickPage : Element :=
  .mk ["typst-page"] (some "0") (some "600") (some "800") ⟨100, 50, 200, 100⟩ []

/-- Example: like `exClickPage` but with an unparseable width attribute. -/
def exClickPageBadW : Element :=
  .mk ["typst-page"] (some "0") (some "abc") (some "800") ⟨100, 50, 200, 100⟩ []

/-- Example: like `exClickPage` but classified as Text, not Page. -/
def exClickText : Element :=
  .mk ["typst-text"] (some "0") (some "600") (some "800") ⟨100, 50, 200, 100⟩ []

/-- Example: like `exClickPage` but with the width attribute missing. -/
def exClickPageNoW : Element :=
  .mk ["typst-page"] (some "0") none (some "800") ⟨100, 50, 200, 100⟩ []

/-- Example: a class-free element (classifies as nothing). -/
def exPlain : Element := .mk [] none none none rect0 []

/-- Example: an element with an unrecognized class (classifies as nothing). -/
def exOther : Element := .mk ["other"] none none none rect0 []

/-- Example: a CharIndex-kind path point carrying character offset 7. -/
def exCharPt : ElementPoint := ⟨5, 7, ""⟩

/-- Example: a Group-kind path point selecting child 0. -/
def exGroupPt : ElementPoint := ⟨1, 0, ""⟩

theorem castToSME_classList (e : Element) :
    castToSourceMappingElement e = (classifyClassList e.classList).map (fun ty => (ty, e, "")) := rfl

/-- A classified element is its own nested classification. -/
theorem castToNest_classified (cl : List String) (pn pw ph : Option String) (r : Rect)
    (ch : List Element) (ty : Nat) (h : classifyClassList cl = some ty) :
    castToNestSourceMappingElement (.mk cl pn pw ph r ch) = some (ty, .mk cl pn pw ph r ch, "") := by
  have hc : castToSourceMappingElement (.mk cl pn pw ph r ch) = some (ty, .mk cl pn pw ph r ch, "") := by
    simp [castToSourceMappingElement, Element.classList, h]
  cases ch with
  | nil => rw [castToNestSourceMappingElement.eq_2 _ _ _ _ _ _ (by intro x hx; cases hx), hc]
  | cons c cs =>
    cases cs with
    | nil => rw [castToNestSourceMappingElement.eq_1, hc]
    | cons d t => rw [castToNestSourceMappingElement.eq_2 _ _ _ _ _ _ (by intro x hx; cases hx), hc]

/-- Nested classification passes through an unclassified single-child link. -/
theorem castToNest_wrapper (cl : List String) (pn pw ph : Option String) (r : Rect)
    (c : Element) (h : classifyClassList cl = none) :
    castToNestSourceMappingElement (.mk cl pn pw ph r [c]) = castToNestSourceMappingElement c := by
  have hc : castToSourceMappingElement (.mk cl pn pw ph r [c]) = none := by
    simp [castToSourceMappingElement, Element.classList, h]
  rw [castToNestSourceMappingElement.eq_1, hc]

/-- An unclassified element without exactly one child has no nested
classification. -/
theorem castToNest_dead (cl : List String) (pn pw ph : Option String) (r : Rect)
    (ch : List Element) (h : classifyClassList cl = none) (h2 : ch.length ≠ 1) :
    castToNestSourceMappingElement (.mk cl pn pw ph r ch) = none := by
  have hc : castToSourceMappingElement (.mk cl pn pw ph r ch) = none := by
    simp [castToSourceMappingElement, Element.classList, h]
  cases ch with
  | nil => rw [castToNestSourceMappingElement.eq_2 _ _ _ _ _ _ (by intro x hx; cases hx), hc]
  | cons c cs =>
    cases cs with
    | nil => simp at h2
    | cons d t => rw [castToNestSourceMappingElement.eq_2 _ _ _ _ _ _ (by intro x hx; cases hx), hc]

/-- Inserting a wrapper into a single-child chain does not change its nested
classification. -/
theorem ChainIns_castToNest {c c' : Element} (h : ChainIns c c') :
    castToNestSourceMappingElement c' = castToNestSourceMappingElement c := by
  induction h with
  | wrapTop cl pn pw ph r c hcl => exact castToNest_wrapper cl pn pw ph r c hcl
  | under cl pn pw ph r c c' hcl _ ih =>
    rw [castToNest_wrapper cl pn pw ph r c hcl, castToNest_wrapper cl pn pw ph r c' hcl, ih]

/-- A chain with its end replaced keeps the end's kind: the chain classifies
to its end, the replaced chain to the new end. -/
theorem ChainRepl_castToNest {c n n' c' : Element} (h : ChainRepl c n n' c') :
    ∃ k, classifyClassList n.classList = some k ∧
      castToNestSourceMappingElement c = some (k, n, "") ∧
      castToNestSourceMappingElement c' = some (k, n', "") := by
  induction h with
  | top n n' k hn hn' =>
    refine ⟨k, hn, ?_, ?_⟩
    · match n, hn with
      | .mk cl pn pw ph r ch, hn => exact castToNest_classified cl pn pw ph r ch k hn
    · match n', hn' with
      | .mk cl pn pw ph r ch, hn' => exact castToNest_classified cl pn pw ph r ch k hn'
  | step cl pn pw ph r c n n' c' hcl _ ih =>
    obtain ⟨k, hk, hc, hc'⟩ := ih
    exact ⟨k, hk, by rw [castToNest_wrapper cl pn pw ph r c hcl]; exact hc,
      by rw [castToNest_wrapper cl pn pw ph r c' hcl]; exact hc'⟩

/-- One descent step of the resolver at a non-CharIndex point. -/
theorem resolveAux_cons (ce : Element) (p : ElementPoint) (rest : List ElementPoint) (hp : p.kind ≠ 5) :
    resolveSourceLeafAux (some ce) (p :: rest) =
      match (castChildrenToSourceMappingElement ce)[p.index]? with
      | none => .ok none
      | some entry =>
        if p.kind = entry.1 then resolveSourceLeafAux (some entry.2.1) rest else .ok none := by
  simp [resolveSourceLeafAux, hp]

/-- Resolving a longer path continues from where the (CharIndex-free) prefix
ended. -/
theorem resolveAux_append :
    ∀ (pre : List ElementPoint) (cur m : Option Element) (off : Nat) (tail : List ElementPoint),
    (∀ q ∈ pre, q.kind ≠ 5) →
    resolveSourceLeafAux cur pre = .ok (some (m, off)) →
    resolveSourceLeafAux cur (pre ++ tail) = resolveSourceLeafAux m tail := by
  intro pre
  induction pre with
  | nil =>
    intro cur m off tail _ h
    simp [resolveSourceLeafAux] at h
    rw [List.nil_append, h.1]
  | cons p ps ih =>
    intro cur m off tail hno h
    have hp : p.kind ≠ 5 := hno p (by simp)
    have hno' : ∀ q ∈ ps, q.kind ≠ 5 := fun q hq => hno q (by simp [hq])
    cases cur with
    | none => simp [resolveSourceLeafAux, hp] at h
    | some ce =>
      rw [resolveAux_cons ce p ps hp] at h
      rw [List.cons_append, resolveAux_cons ce p (ps ++ tail) hp]
      cases hE : (castChildrenToSourceMappingElement ce)[p.index]? with
      | none => rw [hE] at h; simp at h
      | some entry =>
        rw [hE] at h
        by_cases hpk : p.kind = entry.1
        · simp only [if_pos hpk] at h ⊢
          exact ih (some entry.2.1) m off tail hno' h
        · simp [if_neg hpk] at h

/-- Unfolding of the classified-children list of a node. -/
theorem castChildren_mk (cl : List String) (pn pw ph : Option String) (r : Rect) (ch : List Element) :
    castChildrenToSourceMappingElement (.mk cl pn pw ph r ch) = ch.filterMap castToNestSourceMappingElement := rfl

/-- A wrapper insertion along the descent does not change a successful
resolution from the descent root. -/
theorem DescIns_preserve {t t' : Element} {pts : List ElementPoint} (h : DescIns t pts t') :
    ∀ nf : Element, ∀ off : Nat, resolveSourceLeafAux (some t) pts = .ok (some (some nf, off)) →
    resolveSourceLeafAux (some t') pts = resolveSourceLeafAux (some t) pts := by
  induction h with
  | here cl pn pw ph r l c c' rt p rest hp hci =>
    intro nf off _
    have hcast := ChainIns_castToNest hci
    have hch : castChildrenToSourceMappingElement (Element.mk cl pn pw ph r (l ++ c' :: rt)) =
        castChildrenToSourceMappingElement (Element.mk cl pn pw ph r (l ++ c :: rt)) := by
      simp [castChildren_mk, List.filterMap_append, List.filterMap_cons, hcast]
    rw [resolveAux_cons _ p rest hp, resolveAux_cons _ p rest hp, hch]
  | deeper cl pn pw ph r l c c' rt n n' p rest hp hrepl _ ih =>
    intro nf off hres
    obtain ⟨k, _, hcn, hcn'⟩ := ChainRepl_castToNest hrepl
    have hA : castChildrenToSourceMappingElement (Element.mk cl pn pw ph r (l ++ c :: rt)) =
        l.filterMap castToNestSourceMappingElement ++ (k, n, "") ::
          rt.filterMap castToNestSourceMappingElement := by
      simp [castChildren_mk, List.filterMap_append, List.filterMap_cons, hcn]
    have hA' : castChildrenToSourceMappingElement (Element.mk cl pn pw ph r (l ++ c' :: rt)) =
        l.filterMap castToNestSourceMappingElement ++ (k, n', "") ::
          rt.filterMap castToNestSourceMappingElement := by
      simp [castChildren_mk, List.filterMap_append, List.filterMap_cons, hcn']
    rw [resolveAux_cons _ p rest hp] at hres
    rw [hA] at hres
    rw [resolveAux_cons _ p rest hp, resolveAux_cons _ p rest hp, hA, hA']
    rcases Nat.lt_trichotomy p.index (l.filterMap castToNestSourceMappingElement).length with hlt | hieq | hgt
    · have h1 : (l.filterMap castToNestSourceMappingElement ++ (k, n, "") ::
          rt.filterMap castToNestSourceMappingElement)[p.index]? =
          (l.filterMap castToNestSourceMappingElement)[p.index]? := by
        rw [List.getElem?_append, if_pos hlt]
      have h2 : (l.filterMap castToNestSourceMappingElement ++ (k, n', "") ::
          rt.filterMap castToNestSourceMappingElement)[p.index]? =
          (l.filterMap castToNestSourceMappingElement)[p.index]? := by
        rw [List.getElem?_append, if_pos hlt]
      rw [h1, h2]
    · have h1 : (l.filterMap castToNestSourceMappingElement ++ (k, n, "") ::
          rt.filterMap castToNestSourceMappingElement)[p.index]? = some (k, n, "") := by
        rw [hieq, List.getElem?_append, if_neg (lt_irrefl _), Nat.sub_self, List.getElem?_cons_zero]
      have h2 : (l.filterMap castToNestSourceMappingElement ++ (k, n', "") ::
          rt.filterMap castToNestSourceMappingElement)[p.index]? = some (k, n', "") := by
        rw [hieq, List.getElem?_append, if_neg (lt_irrefl _), Nat.sub_self, List.getElem?_cons_zero]
      rw [h1] at hres
      rw [h1, h2]
      simp only at hres ⊢
      by_cases hpk : p.kind = k
      · simp only [if_pos hpk] at hres ⊢
        exact ih nf off hres
      · simp only [if_neg hpk] at hres
        simp at hres
    · have hnlt : ¬ p.index < (l.filterMap castToNestSourceMappingElement).length := by omega
      have hj : p.index - (l.filterMap castToNestSourceMappingElement).length =
          (p.index - (l.filterMap castToNestSourceMappingElement).length - 1) + 1 := by omega
      have h1 : (l.filterMap castToNestSourceMappingElement ++ (k, n, "") ::
          rt.filterMap castToNestSourceMappingElement)[p.index]? =
          (rt.filterMap castToNestSourceMappingElement)[p.index -
            (l.filterMap castToNestSourceMappingElement).length - 1]? := by
        rw [List.getElem?_append, if_neg hnlt, hj, List.getElem?_cons_succ, Nat.add_sub_cancel]
      have h2 : (l.filterMap castToNestSourceMappingElement ++ (k, n', "") ::
          rt.filterMap castToNestSourceMappingElement)[p.index]? =
          (rt.filterMap castToNestSourceMappingElement)[p.index -
            (l.filterMap castToNestSourceMappingElement).length - 1]? := by
        rw [List.getElem?_append, if_neg hnlt, hj, List.getElem?_cons_succ, Nat.add_sub_cancel]
      rw [h1, h2]

/-- C1: for every rendered tree and source path whose point at some position
(after the skipped root marker) has kind CharIndex, resolution terminates
successfully at that point with the pair `(currentNode, point.index)`, where
`currentNode` is the node reached by the path up to but excluding the
CharIndex point; the CharIndex point is never used to select a child (the
result is independent of the points after it and of its index's relation to
the child list). -/
theorem claim_c1_charindex_terminal (elem : Element) (root : ElementPoint)
    (pre : List ElementPoint) (pt : ElementPoint) (rest : List ElementPoint)
    (n : Option Element) (off : Nat)
    (hpre : ∀ q ∈ pre, q.kind ≠ 5) (hpt : pt.kind = 5)
    (h : resolveSourceLeaf elem (root :: pre) = .ok (some (n, off))) :
    resolveSourceLeaf elem (root :: (pre ++ pt :: rest)) = .ok (some (n, pt.index)) := by
  unfold resolveSourceLeaf at h ⊢
  rw [show (root :: (pre ++ pt :: rest)).drop 1 = pre ++ pt :: rest from rfl]
  rw [show (root :: pre).drop 1 = pre from rfl] at h
  rw [resolveAux_append pre (findPage elem) n off (pt :: rest) hpre h]
  simp [resolveSourceLeafAux, hpt]

/-- Witness for C1: in the concrete tree, the path `[root, Text 0, CharIndex 7]`
resolves to the text leaf with offset 7, the node reached by the path without
the CharIndex point. -/
theorem claim_c1_witness :
    (∀ q ∈ [exTextPt], q.kind ≠ 5) ∧ exCharPt.kind = 5 ∧
    resolveSourceLeaf exTree [exRootPt, exTextPt] = .ok (some (some exText, 0)) ∧
    resolveSourceLeaf exTree [exRootPt, exTextPt, exCharPt] = .ok (some (some exText, 7)) := by
  have hres : resolveSourceLeaf exTree [exRootPt, exTextPt] = .ok (some (some exText, 0)) := by
    simp [resolveSourceLeaf, resolveSourceLeafAux, findPage, getElementsByClassName,
      subtreeWithClassList, subtreeWithClass, exTree, exPage, exText, exRootPt, exTextPt,
      castChildrenToSourceMappingElement, Element.children, castToNestSourceMappingElement,
      castToSourceMappingElement, Element.classList, classifyClassList, lookupClassTable,
      CssClassToType]
  exact ⟨by decide, rfl, hres,
    claim_c1_charindex_terminal exTree exRootPt [exTextPt] exCharPt [] (some exText) 0
      (by decide) rfl hres⟩

/-- C2: if, at a descent step reached after a successful (CharIndex-free)
prefix, the point's index is out of range of the classified child list, or
the classified entry at that index has a kind different from the point's
kind, resolution returns the not-found value (`undefined`) — never a nearby
or best-effort match. -/
theorem claim_c2_strict_mismatch (elem : Element) (root : ElementPoint)
    (pre : List ElementPoint) (pt : ElementPoint) (rest : List ElementPoint) (n : Element)
    (hpre : ∀ q ∈ pre, q.kind ≠ 5)
    (h : resolveSourceLeaf elem (root :: pre) = .ok (some (some n, 0)))
    (hpt : pt.kind ≠ 5)
    (hmis : (castChildrenToSourceMappingElement n).length ≤ pt.index ∨
      ∃ entry, (castChildrenToSourceMappingElement n)[pt.index]? = some entry ∧ pt.kind ≠ entry.1) :
    resolveSourceLeaf elem (root :: (pre ++ pt :: rest)) = .ok none := by
  unfold resolveSourceLeaf at h ⊢
  rw [show (root :: (pre ++ pt :: rest)).drop 1 = pre ++ pt :: rest from rfl]
  rw [show (root :: pre).drop 1 = pre from rfl] at h
  rw [resolveAux_append pre (findPage elem) (some n) 0 (pt :: rest) hpre h]
  rw [resolveAux_cons n pt rest hpt]
  rcases hmis with hlen | ⟨entry, hE, hne⟩
  · rw [List.getElem?_eq_none hlen]
  · rw [hE]
    simp only [if_neg hne]

/-- Witness for C2: in the concrete tree the page's classified children are
`[(Text, leaf)]`; a Group-kind point at index 0 mismatches and resolution
returns the not-found value. -/
theorem claim_c2_witness :
    resolveSourceLeaf exTree [exRootPt] = .ok (some (some exPage, 0)) ∧
    (castChildrenToSourceMappingElement exPage)[exGroupPt.index]? = some (0, exText, "") ∧
    exGroupPt.kind ≠ 0 ∧
    resolveSourceLeaf exTree [exRootPt, exGroupPt] = .ok none := by
  have hres : resolveSourceLeaf exTree [exRootPt] = .ok (some (some exPage, 0)) := by
    simp [resolveSourceLeaf, resolveSourceLeafAux, findPage, getElementsByClassName,
      subtreeWithClassList, subtreeWithClass, exTree, exPage, exText, exRootPt,
      Element.children, Element.classList]
  have hE : (castChildrenToSourceMappingElement exPage)[exGroupPt.index]? = some (0, exText, "") := by
    simp [castChildrenToSourceMappingElement, Element.children, exPage, exText, exGroupPt,
      castToNestSourceMappingElement, castToSourceMappingElement, Element.classList,
      classifyClassList, lookupClassTable, CssClassToType]
  refine ⟨hres, hE, by decide, ?_⟩
  exact claim_c2_strict_mismatch exTree exRootPt [] exGroupPt [] exPage
    (by intro q hq; cases hq) hres (by decide) (Or.inr ⟨(0, exText, ""), hE, by decide⟩)

/-- C3: (1) inserting a class-free single-child wrapper node anywhere along a
path's descent (`DescIns`, covering every single-child chain traversed by the
descent and every suffix of it) does not change a successful resolution
result; (2) classification recurses through single-child chains of untagged
nodes, and an untagged child whose child count is not exactly one is excluded
from classification. -/
theorem claim_c3_passthrough :
    (∀ (T T' : Element) (path : List ElementPoint) (page page' nf : Element) (off : Nat),
      findPage T = some page → findPage T' = some page' →
      DescIns page (path.drop 1) page' →
      resolveSourceLeaf T path = .ok (some (some nf, off)) →
      resolveSourceLeaf T' path = resolveSourceLeaf T path) ∧
    (∀ (cl : List String) (pn pw ph : Option String) (r : Rect) (ch : List Element),
      classifyClassList cl = none → ch.length ≠ 1 →
      castToNestSourceMappingElement (.mk cl pn pw ph r ch) = none) := by
  constructor
  · intro T T' path page page' nf off hfp hfp' hd hres
    unfold resolveSourceLeaf at hres ⊢
    rw [hfp] at hres ⊢
    rw [hfp']
    exact DescIns_preserve hd nf off hres
  · exact castToNest_dead

/-- Witness for C3: wrapping the text leaf of the concrete tree in a
class-free single-child wrapper leaves the resolution of
`[root, Text 0]` unchanged, and a class-free childless element is excluded
from classification. -/
theorem claim_c3_witness :
    findPage exTree = some exPage ∧ findPage exTreeW = some exPageW ∧
    resolveSourceLeaf exTree [exRootPt, exTextPt] = .ok (some (some exText, 0)) ∧
    resolveSourceLeaf exTreeW [exRootPt, exTextPt] = resolveSourceLeaf exTree [exRootPt, exTextPt] ∧
    castToNestSourceMappingElement (.mk [] none none none rect0 []) = none := by
  have hfp : findPage exTree = some exPage := by
    simp [findPage, getElementsByClassName, subtreeWithClassList, subtreeWithClass,
      exTree, exPage, exText, Element.children, Element.classList]
  have hfp' : findPage exTreeW = some exPageW := by
    simp [findPage, getElementsByClassName, subtreeWithClassList, subtreeWithClass,
      exTreeW, exPageW, exWrap, exText, Element.children, Element.classList]
  have hres : resolveSourceLeaf exTree [exRootPt, exTextPt] = .ok (some (some exText, 0)) := by
    simp [resolveSourceLeaf, resolveSourceLeafAux, findPage, getElementsByClassName,
      subtreeWithClassList, subtreeWithClass, exTree, exPage, exText, exRootPt, exTextPt,
      castChildrenToSourceMappingElement, Element.children, castToNestSourceMappingElement,
      castToSourceMappingElement, Element.classList, classifyClassList, lookupClassTable,
      CssClassToType]
  have hdesc : DescIns exPage [exTextPt] exPageW :=
    DescIns.here ["typst-page"] none none none rect0 [] exText exWrap [] exTextPt []
      (by decide)
      (ChainIns.wrapTop [] none none none rect0 exText rfl)
  refine ⟨hfp, hfp', hres, ?_, ?_⟩
  · exact claim_c3_passthrough.1 exTree exTreeW [exRootPt, exTextPt] exPage exPageW exText 0
      hfp hfp' hdesc hres
  · exact claim_c3_passthrough.2 [] none none none rect0 [] rfl (by decide)

/-- C4 (code-bug evidence): on a tree that contains no Page-kind node,
`resolveSourceLeaf` does not return the explicit not-found value for a path
with a structural point: the `typst-page` lookup yields `undefined` and the
descent loop raises an uncaught TypeError (reading `.children` of
`undefined`), modelled as `.error ()`. -/
theorem claim_c4_no_page_crash :
    findPage exOther = none ∧
    resolveSourceLeaf exOther [exRootPt, exTextPt] = .error () := by
  have hfp : findPage exOther = none := by
    simp [findPage, getElementsByClassName, subtreeWithClassList, subtreeWithClass,
      exOther, Element.children, Element.classList]
  refine ⟨hfp, ?_⟩
  unfold resolveSourceLeaf
  rw [hfp]
  simp [resolveSourceLeafAux, exTextPt]

/-- C5: for every successful click resolution with background rectangle
`(l, t, w, h)`, click point `(x, y)`, page element whose page-number attribute
parses to the 0-based index `pn` and whose declared dimensions parse to `W`
and `H`, the result is
`{ page_no := pn + 1, x := ((x - l) / w) * W, y := ((y - t) / h) * H }` —
page numbers are exposed 1-based though stored 0-based. -/
theorem claim_c5_click_formula (isRoot : Element → Bool) (chain : List Element)
    (prevSibs : Element → List Element) (x y : ℚ) (k : Nat) (pe : Element) (s : String)
    (pns ws hs : String) (pn : ℤ) (W H : ℚ) (l t w h : ℚ)
    (hasc : ascendLoop isRoot chain none = some (some (k, pe, s)))
    (hbg : (getNthBackgroundRect pe (prevSibs pe) pe.dataPageNumber).rect = ⟨l, t, w, h⟩)
    (hpn : pe.dataPageNumber = some pns) (hpn0 : pns ≠ "") (hpni : parseInt pns = some pn)
    (hw : pe.dataPageWidth = some ws) (hw0 : ws ≠ "") (hwf : parseFloat ws = some W)
    (hh : pe.dataPageHeight = some hs) (hh0 : hs ≠ "") (hhf : parseFloat hs = some H) :
    resolveFrameLoc isRoot chain prevSibs x y =
      some ⟨some (pn + 1), some (((x - l) / w) * W), some (((y - t) / h) * H)⟩ := by
  have hbg' : (getNthBackgroundRect pe (prevSibs pe) (some pns)).rect = ⟨l, t, w, h⟩ := by
    rw [← hpn]; exact hbg
  unfold resolveFrameLoc
  rw [hasc]
  simp only [hpn, hw, hh, hbg', Option.getD_some, hpni, hwf, hhf, Option.map_some']
  rw [if_neg (by simp [jsFalsyStr, hpn0, hw0, hh0])]

/-- Witness for C5: background rectangle `{left:100, top:50, width:200,
height:100}`, click `(150, 75)`, declared dimensions 600×800 and stored page
index 0 give `{page_no: 1, x: 150, y: 200}`. -/
theorem claim_c5_witness :
    resolveFrameLoc (fun _ => false) [exClickPage] (fun _ => []) 150 75 =
      some ⟨some 1, some 150, some 200⟩ := by
  have h := claim_c5_click_formula (fun _ => false) [exClickPage] (fun _ => []) 150 75
    4 exClickPage "" "0" "600" "800" 0 600 800 100 50 200 100
    rfl rfl rfl (by decide) (by decide) rfl (by decide) (by decide) rfl (by decide) (by decide)
  rw [h]
  norm_num

/-- Counterexample to C6: when the page's width attribute is present but does
not parse as a number (`"abc"`, i.e. `NaN`), click resolution does not fail:
it returns a location whose `x` component is `NaN`, instead of the explicit
absence value. -/
theorem claim_c6_counterexample :
    parseFloat "abc" = none ∧
    resolveFrameLoc (fun _ => false) [exClickPageBadW] (fun _ => []) 150 75 =
      some ⟨some 1, none, some 200⟩ := by
  constructor
  · rfl
  · have hne : ("typst-page-inner" : String) ≠ "typst-page" := by decide
    unfold resolveFrameLoc
    rw [show ascendLoop (fun _ => false) [exClickPageBadW] none =
      some (some (4, exClickPageBadW, "")) from rfl]
    simp only [exClickPageBadW, Element.dataPageNumber, Element.dataPageWidth,
      Element.dataPageHeight, Element.rect, getNthBackgroundRect, findBackgroundRect,
      Element.classList, jsFalsyStr, hne, List.mem_singleton, false_and, if_false,
      Option.getD_some, Bool.or_self, Bool.or_false, Bool.false_or]
    rw [show parseInt "0" = some 0 from rfl, show parseFloat "abc" = (none : Option ℚ) from rfl,
      show parseFloat "800" = some (800 : ℚ) from rfl]
    simp
    norm_num

/-- C6 (amended): for every click on a page element whose page-number,
declared-width or declared-height attribute is missing (`null`) or empty,
click resolution fails with the explicit absence value. (When a non-empty
attribute merely fails to parse, the code instead returns a location with NaN
components — see the counterexample.) -/
theorem claim_c6_missing_attrs (isRoot : Element → Bool) (chain : List Element)
    (prevSibs : Element → List Element) (x y : ℚ) (k : Nat) (pe : Element) (s : String)
    (hasc : ascendLoop isRoot chain none = some (some (k, pe, s)))
    (hfal : (jsFalsyStr pe.dataPageNumber || jsFalsyStr pe.dataPageWidth ||
      jsFalsyStr pe.dataPageHeight) = true) :
    resolveFrameLoc isRoot chain prevSibs x y = none := by
  unfold resolveFrameLoc
  rw [hasc]
  simp only [hfal, if_true]

/-- Witness for C6 (amended): a page element lacking the width attribute makes
click resolution fail. -/
theorem claim_c6_witness :
    resolveFrameLoc (fun _ => false) [exClickPageNoW] (fun _ => []) 150 75 = none := by
  exact claim_c6_missing_attrs (fun _ => false) [exClickPageNoW] (fun _ => []) 150 75
    4 exClickPageNoW "" rfl rfl

/-- The ascent loop stops at the first Page-classified element. -/
theorem ascend_stops_at_page (isRoot : Element → Bool) :
    ∀ (pre : List Element) (p : Element) (rest : List Element)
      (may : Option (Nat × Element × String)),
    (∀ e ∈ pre, classifyClassList e.classList ≠ some 4 ∧ isRoot e = false) →
    classifyClassList p.classList = some 4 →
    ascendLoop isRoot (pre ++ p :: rest) may = some (some (4, p, "")) := by
  intro pre
  induction pre with
  | nil =>
    intro p rest may _ hp
    simp [ascendLoop, castToSourceMappingElement, hp]
  | cons e es ih =>
    intro p rest may hall hp
    obtain ⟨h4, hr⟩ := hall e (by simp)
    have hall' : ∀ x ∈ es, classifyClassList x.classList ≠ some 4 ∧ isRoot x = false :=
      fun x hx => hall x (by simp [hx])
    cases hcl : classifyClassList e.classList with
    | none =>
      simp only [List.cons_append, ascendLoop, castToSourceMappingElement, hcl,
        Option.map_none', hr, Bool.false_eq_true, if_false]
      exact ih p rest none hall' hp
    | some k =>
      have hk4 : k ≠ 4 := fun hk => h4 (by rw [hcl, hk])
      simp only [List.cons_append, ascendLoop, castToSourceMappingElement, hcl,
        Option.map_some', hr, Bool.false_eq_true, if_false, if_neg hk4]
      exact ih p rest _ hall' hp

/-- The ascent loop fails with the early plain return when it reaches the
designated root before any Page-classified element. -/
theorem ascend_hits_root (isRoot : Element → Bool) :
    ∀ (pre : List Element) (d : Element) (rest : List Element)
      (may : Option (Nat × Element × String)),
    (∀ e ∈ pre, classifyClassList e.classList ≠ some 4 ∧ isRoot e = false) →
    classifyClassList d.classList ≠ some 4 → isRoot d = true →
    ascendLoop isRoot (pre ++ d :: rest) may = none := by
  intro pre
  induction pre with
  | nil =>
    intro d rest may _ h4 hr
    cases hcl : classifyClassList d.classList with
    | none => simp [ascendLoop, castToSourceMappingElement, hcl, hr]
    | some k =>
      have hk4 : k ≠ 4 := fun hk => h4 (by rw [hcl, hk])
      simp [ascendLoop, castToSourceMappingElement, hcl, hr, if_neg hk4]
  | cons e es ih =>
    intro d rest may hall h4 hr
    obtain ⟨he4, her⟩ := hall e (by simp)
    have hall' : ∀ x ∈ es, classifyClassList x.classList ≠ some 4 ∧ isRoot x = false :=
      fun x hx => hall x (by simp [hx])
    cases hcl : classifyClassList e.classList with
    | none =>
      simp only [List.cons_append, ascendLoop, castToSourceMappingElement, hcl,
        Option.map_none', her, Bool.false_eq_true, if_false]
      exact ih d rest none hall' h4 hr
    | some k =>
      have hk4 : k ≠ 4 := fun hk => he4 (by rw [hcl, hk])
      simp only [List.cons_append, ascendLoop, castToSourceMappingElement, hcl,
        Option.map_some', her, Bool.false_eq_true, if_false, if_neg hk4]
      exact ih d rest _ hall' h4 hr

/-- When no element of the chain is Page-classified or the designated root,
the ascent loop runs out and ends with the classification of the last
element (or the incoming value on an empty chain). -/
theorem ascend_runout (isRoot : Element → Bool) :
    ∀ (chain : List Element) (may : Option (Nat × Element × String)),
    (∀ e ∈ chain, classifyClassList e.classList ≠ some 4 ∧ isRoot e = false) →
    ascendLoop isRoot chain may = some (chain.getLast?.elim may castToSourceMappingElement) := by
  intro chain
  induction chain with
  | nil => intro may _; simp [ascendLoop]
  | cons e es ih =>
    intro may hall
    obtain ⟨h4, hr⟩ := hall e (by simp)
    have hall' : ∀ x ∈ es, classifyClassList x.classList ≠ some 4 ∧ isRoot x = false :=
      fun x hx => hall x (by simp [hx])
    have step : ascendLoop isRoot (e :: es) may =
        ascendLoop isRoot es (castToSourceMappingElement e) := by
      cases hcl : classifyClassList e.classList with
      | none =>
        simp only [ascendLoop, castToSourceMappingElement, hcl, Option.map_none', hr,
          Bool.false_eq_true, if_false]
      | some k =>
        have hk4 : k ≠ 4 := fun hk => h4 (by rw [hcl, hk])
        simp only [ascendLoop, castToSourceMappingElement, hcl, Option.map_some', hr,
          Bool.false_eq_true, if_false, if_neg hk4]
    rw [step, ih (castToSourceMappingElement e) hall']
    cases es with
    | nil => simp
    | cons f fs =>
      rw [List.getLast?_cons_cons]
      cases hlast : (f :: fs).getLast? with
      | none => exact absurd (List.getLast?_eq_none_iff.mp hlast) (by simp)
      | some z => simp

/-- Counterexample to C7: when the walk runs out of ancestors and the last
ancestor classifies as a non-Page kind (here Text), click resolution does not
fail — the Text element is used as the page element and, since it carries page
metadata, a location is returned. -/
theorem claim_c7_counterexample :
    classifyClassList exClickText.classList = some 0 ∧
    resolveFrameLoc (fun _ => false) [exClickText] (fun _ => []) 150 75 =
      some ⟨some 1, some 150, some 200⟩ := by
  constructor
  · rfl
  · have hne : ("typst-page-inner" : String) ≠ "typst-text" := by decide
    unfold resolveFrameLoc
    rw [show ascendLoop (fun _ => false) [exClickText] none =
      some (some (0, exClickText, "")) from rfl]
    simp only [exClickText, Element.dataPageNumber, Element.dataPageWidth,
      Element.dataPageHeight, Element.rect, getNthBackgroundRect, findBackgroundRect,
      Element.classList, jsFalsyStr, hne, List.mem_singleton, false_and, if_false,
      Option.getD_some]
    rw [show parseInt "0" = some 0 from rfl, show parseFloat "600" = some (600 : ℚ) from rfl,
      show parseFloat "800" = some (800 : ℚ) from rfl]
    simp
    norm_num

/-- C7 (amended): the ascent classifies each ancestor non-recursively and
(1) stops successfully exactly at the first Page-classified ancestor;
(2) fails (not-found) when the walk reaches the designated root before any
Page-classified ancestor; (3) when it runs out of ancestors, it fails if the
last ancestor does not classify at all (when the last ancestor classifies as
a non-Page kind, resolution instead proceeds with that element as the page —
see the counterexample). -/
theorem claim_c7_ascent :
    (∀ (isRoot : Element → Bool) (pre : List Element) (p : Element) (rest : List Element)
       (may : Option (Nat × Element × String)),
      (∀ e ∈ pre, classifyClassList e.classList ≠ some 4 ∧ isRoot e = false) →
      classifyClassList p.classList = some 4 →
      ascendLoop isRoot (pre ++ p :: rest) may = some (some (4, p, ""))) ∧
    (∀ (isRoot : Element → Bool) (pre : List Element) (d : Element) (rest : List Element)
       (prevSibs : Element → List Element) (x y : ℚ),
      (∀ e ∈ pre, classifyClassList e.classList ≠ some 4 ∧ isRoot e = false) →
      classifyClassList d.classList ≠ some 4 → isRoot d = true →
      resolveFrameLoc isRoot (pre ++ d :: rest) prevSibs x y = none) ∧
    (∀ (isRoot : Element → Bool) (chain : List Element) (lastE : Element)
       (prevSibs : Element → List Element) (x y : ℚ),
      (∀ e ∈ chain, classifyClassList e.classList ≠ some 4 ∧ isRoot e = false) →
      chain.getLast? = some lastE → classifyClassList lastE.classList = none →
      resolveFrameLoc isRoot chain prevSibs x y = none) := by
  refine ⟨ascend_stops_at_page, ?_, ?_⟩
  · intro isRoot pre d rest prevSibs x y hall h4 hr
    unfold resolveFrameLoc
    rw [ascend_hits_root isRoot pre d rest none hall h4 hr]
  · intro isRoot chain lastE prevSibs x y hall hlast hcl
    unfold resolveFrameLoc
    rw [ascend_runout isRoot chain none hall, hlast]
    simp [castToSourceMappingElement, hcl]

/-- Witness for C7 (amended): the three branches at concrete inputs — stop at
the page above a class-free ancestor; failure on reaching the designated
root; failure when the chain runs out on an unclassifiable ancestor. -/
theorem claim_c7_witness :
    ascendLoop (fun _ => false) [exPlain, exClickPage] none = some (some (4, exClickPage, "")) ∧
    resolveFrameLoc (fun _ => true) [exOther] (fun _ => []) 0 0 = none ∧
    resolveFrameLoc (fun _ => false) [exPlain] (fun _ => []) 0 0 = none := by
  refine ⟨?_, ?_, ?_⟩
  · exact claim_c7_ascent.1 (fun _ => false) [exPlain] exClickPage [] none
      (by intro e he; rw [List.mem_singleton] at he; subst he; exact ⟨by decide, rfl⟩)
      (by decide)
  · exact claim_c7_ascent.2.1 (fun _ => true) [] exOther [] (fun _ => []) 0 0
      (by intro e he; cases he) (by decide) rfl
  · exact claim_c7_ascent.2.2 (fun _ => false) [exPlain] exPlain (fun _ => []) 0 0
      (by intro e he; rw [List.mem_singleton] at he; subst he; exact ⟨by decide, rfl⟩)
      rfl (by decide)

/-- C8: outside slide mode, if `widthOccupied ≥ 90` or `widthOccupied < 50`
the viewport is scrolled directly to the anchor-adjusted offset
(`left − 7` percent of viewport width, `top − 38.2` percent of viewport
height) regardless of any x-offset comparison; otherwise the horizontal
target is the right-aligned adjustment exactly when the anchor-adjusted
x-offset exceeds the right-edge threshold computed from the page rectangle,
and the left-aligned adjustment otherwise. The target is a pure function of
the inputs, hence deterministic. -/
theorem claim_c8_scroll_decision (pm : PreviewMode) (basePos : Rect) (iw ihv : ℚ)
    (pageRect : Rect) (pageNo : ℤ) (iL iT : ℚ)
    (xOffset yOffset pageAdjustLeft pageAdjust widthOccupied : ℚ)
    (hpm : pm ≠ PreviewMode.Slide)
    (hx : xOffset = (iL - basePos.left) - 7 * (iw * (1 / 100)))
    (hy : yOffset = (iT - basePos.top) - (382 / 10) * (ihv * (1 / 100)))
    (hal : pageAdjustLeft = pageRect.left - basePos.left - 5 * (iw * (1 / 100)))
    (har : pageAdjust = pageRect.left - basePos.left + pageRect.width - 95 * (iw * (1 / 100)))
    (hw : widthOccupied = 100 * 100 * (iw * (1 / 100)) / pageRect.width) :
    ((widthOccupied ≥ 90 ∨ widthOccupied < 50) →
      (scrollTo pm basePos iw ihv pageRect pageNo iL iT).scrollTarget = some (xOffset, yOffset)) ∧
    (¬(widthOccupied ≥ 90 ∨ widthOccupied < 50) →
      (scrollTo pm basePos iw ihv pageRect pageNo iL iT).scrollTarget =
        some ((if pageAdjust < xOffset then pageAdjust else pageAdjustLeft), yOffset)) := by
  subst hx hy hal har hw
  constructor
  · intro hcond
    simp only [scrollTo, if_neg hpm, if_pos hcond]
  · intro hcond
    simp only [scrollTo, if_neg hpm, if_neg hcond]

/-- Witness for C8: with viewport width 90 and page width 100,
`widthOccupied = 90 ≥ 90`, so the single-column branch is taken. -/
theorem claim_c8_witness :
    (scrollTo PreviewMode.Doc ⟨0, 0, 0, 0⟩ 90 100 ⟨0, 0, 100, 50⟩ 1 10 20).scrollTarget =
      some ((10 - 0) - 7 * (90 * (1 / 100)), (20 - 0) - (382 / 10) * (100 * (1 / 100))) := by
  exact (claim_c8_scroll_decision PreviewMode.Doc ⟨0, 0, 0, 0⟩ 90 100 ⟨0, 0, 100, 50⟩ 1 10 20
    _ _ _ _ _ (by decide) rfl rfl rfl rfl rfl).1 (Or.inl (by norm_num))

/-- C10: in Slide preview mode, `scrollTo` only sets the partial page number
to the given page and returns at once: no scroll target is computed or
handed to the viewport, and no ripple is triggered. -/
theorem claim_c10_slide_mode (basePos : Rect) (iw ihv : ℚ) (pageRect : Rect)
    (pageNo : ℤ) (iL iT : ℚ) :
    scrollTo PreviewMode.Slide basePos iw ihv pageRect pageNo iL iT =
      { setPartialPageNumber := some pageNo, scrollTarget := none, ripple := none } := by
  simp [scrollTo]

/-- C9: handler installation is idempotent per root. Starting from any
well-formed root state, any sequence of installs ending with handler `h`
leaves exactly `[h]` registered (one click triggers exactly one resolution
attempt), and removal leaves no registered handler. -/
theorem claim_c9_handler_idempotent (s : RootState) (hWF : HandlerWF s) :
    (∀ (hs : List Handler) (h : Handler),
      ((hs ++ [h]).foldl installEditorJumpToHandler s).listeners = [h]) ∧
    (removeSourceMappingHandler s).listeners = [] := by
  have hrem : ∀ s' : RootState, HandlerWF s' → (removeSourceMappingHandler s').listeners = [] := by
    intro s' hW
    cases s' with
    | mk sm ls =>
      cases sm with
      | none => simpa [HandlerWF, removeSourceMappingHandler] using hW
      | some p =>
        simp only [HandlerWF, Option.toList_some] at hW
        simp [removeSourceMappingHandler, removeEventListener, hW]
  have hstep : ∀ (s' : RootState) (h : Handler), HandlerWF s' →
      (installEditorJumpToHandler s' h).listeners = [h] ∧
      HandlerWF (installEditorJumpToHandler s' h) := by
    intro s' h hW
    have hre := hrem s' hW
    constructor
    · simp [installEditorJumpToHandler, addEventListener, hre]
    · simp [HandlerWF, installEditorJumpToHandler, addEventListener, hre]
  have main : ∀ (hs : List Handler) (s' : RootState), HandlerWF s' → ∀ h : Handler,
      ((hs ++ [h]).foldl installEditorJumpToHandler s').listeners = [h] := by
    intro hs
    induction hs with
    | nil => intro s' hW h; simpa using (hstep s' h hW).1
    | cons a as ih =>
      intro s' hW h
      simp only [List.cons_append, List.foldl_cons]
      exact ih (installEditorJumpToHandler s' a) (hstep s' a hW).2 h
  exact ⟨fun hs h => main hs s hWF h, hrem s hWF⟩

/-- Witness for C9: from a fresh root, installing handlers 2, 3 and then 7
leaves exactly handler 7 registered, and removal leaves none. -/
theorem claim_c9_witness :
    (([2, 3] ++ [7]).foldl installEditorJumpToHandler ⟨none, []⟩).listeners = [7] ∧
    (removeSourceMappingHandler ⟨none, []⟩).listeners = [] := by
  have h := claim_c9_handler_idempotent ⟨none, []⟩ rfl
  exact ⟨h.1 [2, 3] 7, h.2⟩
